import Mathlib

/-!
Verification of the `context` request-shaping core (Python package
`src/core/python/context/`) against its natural-language specification.

The Python modules `context.py`, `pruner.py` and `router.py` are shallowly
embedded below:
* Python values that can appear as input payloads / dict values are embedded
  as the inductive `PyVal` (the JSON-representable universe; `routing` values
  are modelled as strings, `constraints` values as integers, matching how the
  code reads them).
* Python dicts are embedded as insertion-ordered association lists (`Dict`),
  with assignment updating the first occurrence in place and appending new
  keys, like CPython dicts.
* Python floats occurring as relevance scores / costs are embedded as `Rat`
  (only order comparisons are performed on them by this code, which agree
  with real-number comparisons for the non-NaN literals involved).
* `datetime` objects are embedded as their stored fields (`PyDatetime`),
  with `isoformat` / `fromisoformat` modelled concretely on the ISO-8601
  forms this program emits; `fromisoformat` returns `none` where Python
  raises `ValueError`.
* Non-deterministic effects (`uuid.uuid4()`, `datetime.now`) are passed as
  explicit `freshId` / `now` arguments.
* Fallible operations return `Except String` where Python raises.
-/

namespace ContextCore

/-- JSON-representable Python values (payload universe for input `data`,
`output` and `metadata` dict values). -/
inductive PyVal where
  | pnone
  | pbool (b : Bool)
  | pint (n : Int)
  | pstr (s : String)
  | plist (xs : List PyVal)
  | pdict (kvs : List (String × PyVal))

/-- Lowercase hex digit, as used by Python's `json` escaping. -/
def hexDigit (n : Nat) : Char :=
  match n with
  | 0 => '0' | 1 => '1' | 2 => '2' | 3 => '3' | 4 => '4'
  | 5 => '5' | 6 => '6' | 7 => '7' | 8 => '8' | 9 => '9'
  | 10 => 'a' | 11 => 'b' | 12 => 'c' | 13 => 'd' | 14 => 'e'
  | _ => 'f'

/-- `\uXXXX` escape body for a code point below 0x10000. -/
def uEscape4 (n : Nat) : List Char :=
  ['\\', 'u', hexDigit (n / 4096 % 16), hexDigit (n / 256 % 16),
   hexDigit (n / 16 % 16), hexDigit (n % 16)]

/-- Escape of one character in `json.dumps` output (default
`ensure_ascii=True`: everything outside the printable ASCII range is
`\u`-escaped, astral code points as surrogate pairs). -/
def escChar (c : Char) : List Char :=
  if c = '"' then ['\\', '"']
  else if c = '\\' then ['\\', '\\']
  else if c = '\n' then ['\\', 'n']
  else if c = '\t' then ['\\', 't']
  else if c = '\r' then ['\\', 'r']
  else if c.toNat = 8 then ['\\', 'b']
  else if c.toNat = 12 then ['\\', 'f']
  else if c.toNat < 32 ∨ 127 ≤ c.toNat then
    if c.toNat < 65536 then uEscape4 c.toNat
    else uEscape4 (55296 + (c.toNat - 65536) / 1024) ++
         uEscape4 (56320 + (c.toNat - 65536) % 1024)
  else [c]

/-- Escaped body of a JSON string literal. -/
def escList (l : List Char) : List Char := l.flatMap escChar

mutual
/-- `json.dumps(v)` with Python's default separators `", "` / `": "`,
as a character list. -/
def dumps : PyVal → List Char
  | .pnone => ['n', 'u', 'l', 'l']
  | .pbool true => ['t', 'r', 'u', 'e']
  | .pbool false => ['f', 'a', 'l', 's', 'e']
  | .pint n => (toString n).data
  | .pstr s => '"' :: (escList s.data ++ ['"'])
  | .plist [] => ['[', ']']
  | .plist (x :: xs) => '[' :: (dumps x ++ dumpsRest xs ++ [']'])
  | .pdict [] => ['\x7b', '\x7d']
  | .pdict ((k, v) :: xs) =>
      '\x7b' :: (dumpsPair k v ++ dumpsPairsRest xs ++ ['\x7d'])

/-- Remaining list items, each preceded by `", "`. -/
def dumpsRest : List PyVal → List Char
  | [] => []
  | x :: xs => ',' :: ' ' :: (dumps x ++ dumpsRest xs)

/-- One `"key": value` dict entry. -/
def dumpsPair (k : String) (v : PyVal) : List Char :=
  '"' :: (escList k.data ++ ['"', ':', ' ']) ++ dumps v

/-- Remaining dict entries, each preceded by `", "`. -/
def dumpsPairsRest : List (String × PyVal) → List Char
  | [] => []
  | (k, v) :: xs => ',' :: ' ' :: (dumpsPair k v ++ dumpsPairsRest xs)
end

/-- `ContextInput._estimate_tokens` (context.py:23-31): 4-characters-per-token
heuristic over `data` itself for strings, `json.dumps(data)` for dicts/lists,
and `str(data)` for the remaining scalar values. -/
def estimateTokens : PyVal → Int
  | .pstr s => (s.data.length / 4 : Nat)
  | .plist xs => ((dumps (.plist xs)).length / 4 : Nat)
  | .pdict xs => ((dumps (.pdict xs)).length / 4 : Nat)
  | .pnone => (("None".data.length / 4 : Nat) : Int)
  | .pbool true => (("True".data.length / 4 : Nat) : Int)
  | .pbool false => (("False".data.length / 4 : Nat) : Int)
  | .pint n => (((toString n).data.length / 4 : Nat) : Int)

/-- `ContextInput` (context.py:15-48): one input with metadata. -/
structure ContextInput where
  data : PyVal
  relevance : Rat
  tokens : Int

/-- `ContextInput.__init__` (context.py:18-21). `tokens or
self._estimate_tokens(data)`: a falsy `tokens` argument (`None` or `0`)
falls back to the heuristic estimate. -/
def ContextInput.init (data : PyVal) (relevance : Rat) (tokens : Option Int) :
    ContextInput :=
  { data := data
    relevance := relevance
    tokens :=
      match tokens with
      | some t => if t = 0 then estimateTokens data else t
      | none => estimateTokens data }

/-- Insertion-ordered association list modelling a Python `dict`. -/
abbrev Dict (α : Type) : Type := List (String × α)

/-- `d.get(k)` / `d[k]`-lookup: first entry with key `k`. -/
def dictGet? {α : Type} (d : Dict α) (k : String) : Option α :=
  (d.find? (fun p => p.1 == k)).map (·.2)

/-- `d[k] = v`: update the first occurrence of `k` in place, else append. -/
def dictSet {α : Type} (d : Dict α) (k : String) (v : α) : Dict α :=
  match d with
  | [] => [(k, v)]
  | (k', v') :: rest =>
      if k' = k then (k, v) :: rest else (k', v') :: dictSet rest k v

/-- `k in d`. -/
def dictContains {α : Type} (d : Dict α) (k : String) : Bool :=
  (dictGet? d k).isSome

/-- `d.update(e)`: assign `e`'s entries into `d` in `e`'s order. -/
def dictUpdate {α : Type} (d e : Dict α) : Dict α :=
  e.foldl (fun acc p => dictSet acc p.1 p.2) d

/-- A `datetime.datetime` as its stored fields. `tzOffsetMinutes = none`
models a naive datetime, `some o` an aware one with a fixed UTC offset of
`o` minutes (this program only ever constructs `timezone.utc`, i.e.
`some 0`, or whatever `fromisoformat` parsed). -/
structure PyDatetime where
  year : Nat
  month : Nat
  day : Nat
  hour : Nat
  minute : Nat
  second : Nat
  microsecond : Nat
  tzOffsetMinutes : Option Int
deriving DecidableEq, Repr

/-- Gregorian leap-year rule. -/
def isLeapYear (y : Nat) : Bool :=
  y % 4 = 0 && (y % 100 != 0 || y % 400 = 0)

/-- Number of days in a month. -/
def daysInMonth (y m : Nat) : Nat :=
  if m = 2 then (if isLeapYear y then 29 else 28)
  else if m = 4 ∨ m = 6 ∨ m = 9 ∨ m = 11 then 30
  else 31

/-- The field ranges `datetime.datetime` enforces at construction. -/
def PyDatetime.validB (t : PyDatetime) : Bool :=
  decide (1 ≤ t.year) && decide (t.year ≤ 9999) &&
  decide (1 ≤ t.month) && decide (t.month ≤ 12) &&
  decide (1 ≤ t.day) && decide (t.day ≤ daysInMonth t.year t.month) &&
  decide (t.hour ≤ 23) && decide (t.minute ≤ 59) && decide (t.second ≤ 59) &&
  decide (t.microsecond ≤ 999999) &&
  (match t.tzOffsetMinutes with
   | none => true
   | some o => decide (o.natAbs ≤ 1439))

/-- Decimal digit character. -/
def digitChar (d : Nat) : Char :=
  match d with
  | 0 => '0' | 1 => '1' | 2 => '2' | 3 => '3' | 4 => '4'
  | 5 => '5' | 6 => '6' | 7 => '7' | 8 => '8' | _ => '9'

/-- `n` zero-padded to `k` decimal digits (most significant first),
as `"%04d" % n` does for `k = 4`. -/
def padDigits : Nat → Nat → List Char
  | 0, _ => []
  | k + 1, n => digitChar (n / 10 ^ k % 10) :: padDigits k n

/-- Value of one ASCII digit character. -/
def parseDigit? (c : Char) : Option Nat :=
  if '0' ≤ c ∧ c ≤ '9' then some (c.toNat - 48) else none

/-- Parse exactly `k` decimal digits, MSB first, onto accumulator `acc`. -/
def parseNDigits : Nat → Nat → List Char → Option (Nat × List Char)
  | 0, acc, l => some (acc, l)
  | _ + 1, _, [] => none
  | k + 1, acc, c :: l =>
      match parseDigit? c with
      | some d => parseNDigits k (acc * 10 + d) l
      | none => none

/-- Parse a `±HH:MM` body (after the sign) into offset minutes, with the
range checks `datetime.timezone` imposes. -/
def parseHM (l : List Char) : Option (Nat × List Char) :=
  match parseNDigits 2 0 l with
  | some (h, ':' :: l2) =>
      match parseNDigits 2 0 l2 with
      | some (m, l3) =>
          if h ≤ 23 ∧ m ≤ 59 then some (h * 60 + m, l3) else none
      | none => none
  | _ => none

/-- Parse the optional trailing UTC-offset part: end of input means a naive
datetime, otherwise a sign followed by `HH:MM`. -/
def parseOffset : List Char → Option (Option Int × List Char)
  | [] => some (none, [])
  | '+' :: l =>
      match parseHM l with
      | some (m, rest) => some (some (m : Int), rest)
      | none => none
  | '-' :: l =>
      match parseHM l with
      | some (m, rest) => some (some (-(m : Int)), rest)
      | none => none
  | _ => none

/-- `datetime.isoformat()`:
`YYYY-MM-DDTHH:MM:SS[.ffffff][±HH:MM]` — microseconds are omitted when 0,
the offset is omitted for naive datetimes (and is never the letter `Z`). -/
def isoformatL (t : PyDatetime) : List Char :=
  padDigits 4 t.year ++ '-' ::
    (padDigits 2 t.month ++ '-' ::
      (padDigits 2 t.day ++ 'T' ::
        (padDigits 2 t.hour ++ ':' ::
          (padDigits 2 t.minute ++ ':' ::
            (padDigits 2 t.second ++
              ((if t.microsecond = 0 then []
                else '.' :: padDigits 6 t.microsecond) ++
               (match t.tzOffsetMinutes with
                | none => []
                | some o =>
                    (if o < 0 then '-' else '+') ::
                      (padDigits 2 (o.natAbs / 60) ++ ':' ::
                        padDigits 2 (o.natAbs % 60)))))))))

/-- `datetime.isoformat()` as a `String`. -/
def PyDatetime.isoformat (t : PyDatetime) : String :=
  String.mk (isoformatL t)

/-- `datetime.fromisoformat`, modelled on the full
`YYYY-MM-DDTHH:MM:SS[.ffffff][±HH:MM]` forms `isoformat` emits; abbreviated
ISO forms Python also accepts (date-only, missing seconds, …) are not
needed by any claim and are rejected by this model. `none` stands for the
`ValueError` Python raises on a malformed string. -/
def fromisoformatL (l : List Char) : Option PyDatetime :=
  match parseNDigits 4 0 l with
  | some (y, '-' :: l1) =>
      match parseNDigits 2 0 l1 with
      | some (mo, '-' :: l2) =>
          match parseNDigits 2 0 l2 with
          | some (d, 'T' :: l3) =>
              match parseNDigits 2 0 l3 with
              | some (h, ':' :: l4) =>
                  match parseNDigits 2 0 l4 with
                  | some (mi, ':' :: l5) =>
                      match parseNDigits 2 0 l5 with
                      | some (s, l6) =>
                          match
                            (match l6 with
                             | '.' :: l7 => parseNDigits 6 0 l7
                             | _ => some (0, l6)) with
                          | some (us, l8) =>
                              match parseOffset l8 with
                              | some (tz, []) =>
                                  let t : PyDatetime := ⟨y, mo, d, h, mi, s, us, tz⟩
                                  if t.validB then some t else none
                              | _ => none
                          | none => none
                      | none => none
                  | _ => none
              | _ => none
          | _ => none
      | _ => none
  | _ => none

/-- `datetime.fromisoformat` on a `String`. -/
def PyDatetime.fromisoformat (s : String) : Option PyDatetime :=
  fromisoformatL s.data

/-- `s.replace('Z', '+00:00')` (context.py:352), character by character. -/
def replaceZL : List Char → List Char
  | [] => []
  | c :: cs =>
      if c = 'Z' then '+' :: '0' :: '0' :: ':' :: '0' :: '0' :: replaceZL cs
      else c :: replaceZL cs

/-- `s.replace('Z', '+00:00')` on a `String`. -/
def replaceZ (s : String) : String :=
  String.mk (replaceZL s.data)

/-- `ContextInput.to_dict` (context.py:33-39). -/
structure InputPayload where
  data : Option PyVal
  relevance : Option Rat
  tokens : Option Int

/-- `ContextInput.to_dict` (context.py:33-39): all three keys present. -/
def ContextInput.to_dict (i : ContextInput) : InputPayload :=
  { data := some i.data, relevance := some i.relevance, tokens := some i.tokens }

/-- `ContextInput.from_dict` (context.py:41-48): `data.get` defaults —
missing `data` becomes `None`, missing `relevance` becomes `1.0`, missing
`tokens` becomes `None` (and is then re-estimated by `__init__`). -/
def ContextInput.from_dict (p : InputPayload) : ContextInput :=
  ContextInput.init (p.data.getD .pnone) (p.relevance.getD 1) p.tokens

/-- The serialized form of a `Context` (§6 of the spec; keys of the dict
built by `Context.to_dict`, context.py:294-312). `none` in a field stands
for the key being absent (for `category`/`parent_id` also for a `null`
value, which the code treats identically via `.get`). The stdlib
`json.dumps`/`json.loads` pair is the identity on such well-typed payload
dicts, so `to_json`/`from_json` are modelled at this dict level. -/
structure CtxPayload where
  id : Option String
  intent : Option String
  category : Option String
  inputs : Option (List InputPayload)
  constraints : Option (Dict Int)
  routing : Option (Dict String)
  output : Option (Dict PyVal)
  metadata : Option (Dict PyVal)
  parent_id : Option String
  created_at : Option String

/-- The `Context` aggregate (context.py:51-108). The private lazily-created
collaborator caches (`_executor`, `_pruner`, `_router`) are stateless and
not modelled. -/
structure Context where
  id : String
  intent : String
  category : Option String
  inputs : List ContextInput
  constraints : Dict Int
  routing : Dict String
  output : Dict PyVal
  metadata : Dict PyVal
  parent_id : Option String
  created_at : PyDatetime

/-- `Context.__init__` (context.py:72-108). `context_id or str(uuid.uuid4())`
makes a falsy (`None` or empty) `context_id` fall back to the fresh UUID,
and `constraints or {}` etc. turn `None`/empty dicts into `{}`. The fresh
UUID and `datetime.now(timezone.utc)` are passed in as `freshId`/`now`. -/
def Context.init (freshId : String) (now : PyDatetime) (intent : String)
    (category : Option String) (constraints : Option (Dict Int))
    (routing : Option (Dict String)) (output : Option (Dict PyVal))
    (metadata : Option (Dict PyVal)) (parent_id : Option String)
    (context_id : Option String) : Context :=
  { id :=
      match context_id with
      | some c => if c = "" then freshId else c
      | none => freshId
    intent := intent
    category := category
    inputs := []
    constraints := constraints.getD []
    routing := routing.getD []
    output := output.getD []
    metadata := metadata.getD []
    parent_id := parent_id
    created_at := now }

/-- `Context.add_input` (context.py:110-128), without the `self` return. -/
def Context.add_input (self : Context) (data : PyVal) (relevance : Rat)
    (tokens : Option Int) : Context :=
  { self with inputs := self.inputs ++ [ContextInput.init data relevance tokens] }

/-- `Context.get_total_tokens` (context.py:370-377). -/
def Context.get_total_tokens (self : Context) : Int :=
  (self.inputs.map (·.tokens)).sum

/-- `Context.to_dict` (context.py:294-312): every key is emitted. -/
def Context.to_dict (c : Context) : CtxPayload :=
  { id := some c.id
    intent := some c.intent
    category := c.category
    inputs := some (c.inputs.map ContextInput.to_dict)
    constraints := some c.constraints
    routing := some c.routing
    output := some c.output
    metadata := some c.metadata
    parent_id := c.parent_id
    created_at := some c.created_at.isoformat }

/-- `Context.to_json` (context.py:314-321) = `json.dumps(self.to_dict())`,
modelled at the payload-dict level (see `CtxPayload`). -/
def Context.to_json (c : Context) : CtxPayload :=
  c.to_dict

/-- `Context.from_dict` (context.py:323-355). `data["intent"]` raises
`KeyError` when absent; a present but unparseable `created_at` raises
`ValueError` inside `datetime.fromisoformat`; both are modelled as
`Except.error`. An absent `id`/`inputs`/`created_at` key is silently
defaulted (fresh UUID, no inputs, construction-time `now`). -/
def Context.from_dict (freshId : String) (now : PyDatetime) (d : CtxPayload) :
    Except String Context :=
  match d.intent with
  | none => Except.error "KeyError: 'intent'"
  | some intent =>
      let ctx := Context.init freshId now intent d.category d.constraints
        d.routing d.output d.metadata d.parent_id d.id
      let ctx :=
        match d.inputs with
        | none => ctx
        | some ips => { ctx with inputs := ips.map ContextInput.from_dict }
      match d.created_at with
      | none => Except.ok ctx
      | some s =>
          match PyDatetime.fromisoformat (replaceZ s) with
          | none => Except.error "ValueError: invalid isoformat string"
          | some t => Except.ok { ctx with created_at := t }

/-- `Context.from_json` (context.py:357-368) = `cls.from_dict(json.loads(s))`,
modelled at the payload-dict level (see `CtxPayload`). -/
def Context.from_json (freshId : String) (now : PyDatetime) (d : CtxPayload) :
    Except String Context :=
  Context.from_dict freshId now d

/-- One `**kwargs` entry of `Context.extend` (context.py:219-252), keyed by
the keyword name, its value typed as the attribute it may set; `other`
covers keyword names that are not `Context` attributes (the
`hasattr(child, key)` check skips them). -/
inductive KwArg where
  | category (v : Option String)
  | id (v : String)
  | inputs (v : List ContextInput)
  | constraints (v : Dict Int)
  | routing (v : Dict String)
  | output (v : Dict PyVal)
  | metadata (v : Dict PyVal)
  | parent_id (v : Option String)
  | created_at (v : PyDatetime)
  | intent (v : String)
  | other (name : String)

/-- `kwargs.get("category", self.category)` in `Context.extend`. -/
def kwargsCategory (kwargs : List KwArg) (dflt : Option String) : Option String :=
  match kwargs.find? (fun a => match a with | .category _ => true | _ => false) with
  | some (.category v) => v
  | _ => dflt

/-- One iteration of the override loop in `Context.extend`
(context.py:247-250): `category`/`intent` keys are excluded, keys that are
not attributes are skipped, every other key is `setattr`-assigned. -/
def applyKwarg (c : Context) : KwArg → Context
  | .category _ => c
  | .intent _ => c
  | .id v => { c with id := v }
  | .inputs v => { c with inputs := v }
  | .constraints v => { c with constraints := v }
  | .routing v => { c with routing := v }
  | .output v => { c with output := v }
  | .metadata v => { c with metadata := v }
  | .parent_id v => { c with parent_id := v }
  | .created_at v => { c with created_at := v }
  | .other _ => c

/-- `Context.extend` (context.py:219-252). `intent or self.intent` makes a
falsy (empty) intent fall back to the parent's; all inherited containers
are `deepcopy`-ed, i.e. value copies. -/
def Context.extend (freshId : String) (now : PyDatetime) (self : Context)
    (intent : Option String) (kwargs : List KwArg) : Context :=
  let newIntent :=
    match intent with
    | some i => if i = "" then self.intent else i
    | none => self.intent
  let child := Context.init freshId now newIntent
    (kwargsCategory kwargs self.category) (some self.constraints)
    (some self.routing) (some self.output) (some self.metadata)
    (some self.id) none
  let child := { child with inputs := self.inputs }
  kwargs.foldl applyKwarg child

/-- `Context.merge` (context.py:254-292). Note
`if other.constraints.get("max_tokens"):` — the minimum-merge only runs
when `other`'s value is present and truthy (non-zero). -/
def Context.merge (freshId : String) (now : PyDatetime)
    (self other : Context) : Context :=
  let merged := Context.init freshId now self.intent self.category
    (some self.constraints) (some self.routing) (some self.output)
    (some self.metadata) none none
  let merged := { merged with inputs := self.inputs ++ other.inputs }
  let merged :=
    match dictGet? other.constraints "max_tokens" with
    | some v =>
        if v ≠ 0 then
          if dictContains merged.constraints "max_tokens" then
            { merged with
              constraints := dictSet merged.constraints "max_tokens"
                (min ((dictGet? merged.constraints "max_tokens").getD 0) v) }
          else
            { merged with
              constraints := dictSet merged.constraints "max_tokens" v }
        else merged
    | none => merged
  let merged := { merged with routing := dictUpdate merged.routing other.routing }
  { merged with metadata := dictUpdate merged.metadata other.metadata }

/-- Stable descending insertion: `x` goes before the first element whose
relevance is not above `x`'s (so earlier-listed elements win ties). -/
def insertDesc (x : ContextInput) : List ContextInput → List ContextInput
  | [] => [x]
  | y :: ys =>
      if y.relevance ≤ x.relevance then x :: y :: ys else y :: insertDesc x ys

/-- `sorted(filtered, key=lambda x: x.relevance, reverse=True)`
(pruner.py:48-52): a stable sort by relevance descending. -/
def sortByRelevanceDesc : List ContextInput → List ContextInput
  | [] => []
  | x :: xs => insertDesc x (sortByRelevanceDesc xs)

/-- The accumulation loop of `Pruner.prune` (pruner.py:59-81): take units
while the running total fits; on the first unit that does not fit, append a
single truncated copy when its data is a string and more than 100 tokens of
budget remain, then stop. -/
def takeLoop (maxTokens : Int) (total : Int) :
    List ContextInput → List ContextInput
  | [] => []
  | inp :: rest =>
      if total + inp.tokens ≤ maxTokens then
        inp :: takeLoop maxTokens (total + inp.tokens) rest
      else
        match inp.data with
        | .pstr s =>
            let remaining := maxTokens - total
            if 100 < remaining then
              [ContextInput.init
                (.pstr (String.mk (s.data.take (remaining * 4).toNat)))
                inp.relevance (some remaining)]
            else []
        | _ => []

/-- `Pruner.prune` (pruner.py:19-82). -/
def Pruner.prune (inputs : List ContextInput) (max_tokens : Option Int)
    (relevance_threshold : Rat) : List ContextInput :=
  let filtered := inputs.filter (fun inp => relevance_threshold ≤ inp.relevance)
  let sorted_inputs := sortByRelevanceDesc filtered
  match max_tokens with
  | none => sorted_inputs
  | some mt => takeLoop mt 0 sorted_inputs

/-- One row of `Router.MODEL_SPECS` (router.py:23-56). -/
structure ModelSpec where
  provider : String
  max_tokens : Int
  cost_per_1k_input : Rat
  cost_per_1k_output : Rat
  quality : Rat
  speed : Rat

/-- `Router.MODEL_SPECS` (router.py:23-56), in source insertion order. -/
def Router.MODEL_SPECS : List (String × ModelSpec) :=
  [("gpt-4", ⟨"openai", 8192, 0.03, 0.06, 0.95, 0.6⟩),
   ("gpt-3.5-turbo", ⟨"openai", 4096, 0.0015, 0.002, 0.75, 0.9⟩),
   ("claude-3-opus", ⟨"anthropic", 4096, 0.015, 0.075, 0.95, 0.7⟩),
   ("claude-3-sonnet", ⟨"anthropic", 4096, 0.003, 0.015, 0.85, 0.85⟩)]

/-- `self.MODEL_SPECS[model]` lookup / `model in self.MODEL_SPECS` test. -/
def Router.getSpec? (m : String) : Option ModelSpec :=
  (Router.MODEL_SPECS.find? (fun p => p.1 == m)).map (·.2)

/-- The keys of the capability table, in iteration order. -/
def Router.modelKeys : List String :=
  Router.MODEL_SPECS.map Prod.fst

/-- `self.MODEL_SPECS[m]["cost_per_1k_input"]` (always defined for table
keys; the `getD` default is unreachable there). -/
def Router.costOf (m : String) : Rat :=
  ((Router.getSpec? m).map (·.cost_per_1k_input)).getD 0

/-- `self.MODEL_SPECS[m]["quality"]`. -/
def Router.qualityOf (m : String) : Rat :=
  ((Router.getSpec? m).map (·.quality)).getD 0

/-- `self.MODEL_SPECS[m]["speed"]`. -/
def Router.speedOf (m : String) : Rat :=
  ((Router.getSpec? m).map (·.speed)).getD 0

/-- Python `min(keys, key=f)`: the first element attaining the minimal key
(later elements replace the best only on a strictly smaller key). The empty
case, where Python raises, is unreachable for the static table. -/
def pyMinBy (f : String → Rat) : List String → String
  | [] => ""
  | x :: xs => xs.foldl (fun best y => if f y < f best then y else best) x

/-- Python `max(keys, key=f)`: the first element attaining the maximal key. -/
def pyMaxBy (f : String → Rat) : List String → String
  | [] => ""
  | x :: xs => xs.foldl (fun best y => if f best < f y then y else best) x

/-- `Router._select_by_strategy` (router.py:97-127). -/
def Router.selectByStrategy (strategy : String) : String :=
  if strategy = "cost_optimized" then pyMinBy Router.costOf Router.modelKeys
  else if strategy = "quality_optimized" then pyMaxBy Router.qualityOf Router.modelKeys
  else if strategy = "speed_optimized" then pyMaxBy Router.speedOf Router.modelKeys
  else "gpt-3.5-turbo"

/-- `Router.route` (router.py:58-95). `if model:` / `if provider:` /
`if strategy and "model" not in routing:` are truthiness tests, so `None`
and the empty string are both treated as "not given". -/
def Router.route (current_routing : Dict String)
    (model provider strategy : Option String) : Dict String :=
  let routing := current_routing
  let routing :=
    match model with
    | some m =>
        if m ≠ "" then
          let r := dictSet routing "model" m
          match Router.getSpec? m with
          | some sp => dictSet r "provider" sp.provider
          | none => r
        else routing
    | none => routing
  let routing :=
    match provider with
    | some p => if p ≠ "" then dictSet routing "provider" p else routing
    | none => routing
  match strategy with
  | some st =>
      if st ≠ "" ∧ dictContains routing "model" = false then
        let m := Router.selectByStrategy st
        let r := dictSet routing "model" m
        match Router.getSpec? m with
        | some sp => dictSet r "provider" sp.provider
        | none => r
      else routing
  | none => routing

/-- Total `tokenEstimate` of a sequence of inputs. -/
def sumTokens (l : List ContextInput) : Int :=
  (l.map (·.tokens)).sum

/-! ### Concrete test fixtures (used by witness theorems) -/

/-- A fixed aware UTC timestamp. -/
def tNow : PyDatetime := ⟨2024, 5, 17, 10, 30, 0, 123456, some 0⟩

/-- A second, later fixed timestamp (the deserializer's `now`). -/
def tNow2 : PyDatetime := ⟨2024, 5, 18, 11, 0, 0, 0, some 0⟩

/-- An input built with only content (token estimate derived). -/
def sampleInput : ContextInput :=
  ContextInput.init (.pstr "hello world, this is context data") 1 none

/-- An input with an explicit token count and lower relevance. -/
def sampleInput2 : ContextInput :=
  ContextInput.init (.pstr "background information paragraph") 0 (some 150)

/-- A fully populated Context value. -/
def ctx0 : Context :=
  { id := "ctx-0001"
    intent := "analyze"
    category := some "metadata"
    inputs := [sampleInput, sampleInput2]
    constraints := [("max_tokens", 4000)]
    routing := [("model", "gpt-4")]
    output := [("format", .pstr "json")]
    metadata := [("source", .pstr "unit-test")]
    parent_id := none
    created_at := tNow }

/-- A second Context value, for merge witnesses. -/
def ctx1 : Context :=
  { id := "ctx-0002"
    intent := "summarize"
    category := none
    inputs := [sampleInput2]
    constraints := [("max_tokens", 2000)]
    routing := [("model", "claude-3-opus"), ("temperature", "low")]
    output := []
    metadata := [("source", .pstr "other-test")]
    parent_id := none
    created_at := tNow2 }

/-- A Context with `maxTokens = 100`, built through the constructor. -/
def ctxA : Context :=
  Context.init "a-id" tNow "analyze" none (some [("max_tokens", 100)])
    none none none none none

/-- A Context with `maxTokens = 0`, built through the constructor. -/
def ctxB : Context :=
  Context.init "b-id" tNow2 "analyze" none (some [("max_tokens", 0)])
    none none none none none

/-- A serialized payload with `intent` but no `created_at` key. -/
def payloadNoCreated : CtxPayload :=
  { id := none, intent := some "analyze", category := none, inputs := none
    constraints := none, routing := none, output := none, metadata := none
    parent_id := none, created_at := none }

/-- A serialized payload missing the required `intent` key. -/
def payloadNoIntent : CtxPayload :=
  { id := none, intent := none, category := none, inputs := none
    constraints := none, routing := none, output := none, metadata := none
    parent_id := none, created_at := none }

/-- A serialized payload with a malformed `created_at` timestamp. -/
def payloadBadCreated : CtxPayload :=
  { id := none, intent := some "analyze", category := none, inputs := none
    constraints := none, routing := none, output := none, metadata := none
    parent_id := none, created_at := some "not-a-timestamp" }

/-! ### Helper lemmas: digit printing and parsing -/

theorem parseDigit?_digitChar (d : Nat) (h : d < 10) :
    parseDigit? (digitChar d) = some d := by
  interval_cases d <;> rfl

theorem digitChar_ne_Z (d : Nat) : digitChar d ≠ 'Z' := by
  unfold digitChar
  split <;> decide

theorem parseNDigits_padDigits (k acc n : Nat) (rest : List Char) :
    parseNDigits k acc (padDigits k n ++ rest) =
      some (acc * 10 ^ k + n % 10 ^ k, rest) := by
  induction k generalizing acc n with
  | zero => simp [parseNDigits, padDigits, Nat.mod_one]
  | succ k ih =>
      have hd : n / 10 ^ k % 10 < 10 := Nat.mod_lt _ (by norm_num)
      simp only [padDigits, List.cons_append, parseNDigits,
        parseDigit?_digitChar _ hd]
      show parseNDigits k (acc * 10 + n / 10 ^ k % 10) (padDigits k n ++ rest) = _
      rw [ih]
      have hpow : (10 : Nat) ^ (k + 1) = 10 ^ k * 10 := by ring
      rw [hpow, Nat.mod_mul]
      congr 2
      ring

theorem mem_padDigits_ne_Z (k n : Nat) : ∀ c ∈ padDigits k n, c ≠ 'Z' := by
  induction k generalizing n with
  | zero => simp [padDigits]
  | succ k ih =>
      simp only [padDigits, List.mem_cons]
      rintro c (rfl | hc)
      · exact digitChar_ne_Z _
      · exact ih n c hc

/-! ### Helper lemmas: `replace('Z', '+00:00')` -/

theorem replaceZL_eq_self (l : List Char) (h : ∀ c ∈ l, c ≠ 'Z') :
    replaceZL l = l := by
  induction l with
  | nil => rfl
  | cons c cs ih =>
      have hc : c ≠ 'Z' := h c (List.mem_cons_self ..)
      simp only [replaceZL, if_neg hc]
      exact congrArg (c :: ·) (ih fun x hx => h x (List.mem_cons_of_mem _ hx))

theorem notZ_nil : ∀ c ∈ ([] : List Char), c ≠ 'Z' := by
  simp

theorem notZ_cons {c0 : Char} {l : List Char} (h0 : c0 ≠ 'Z')
    (h : ∀ c ∈ l, c ≠ 'Z') : ∀ c ∈ c0 :: l, c ≠ 'Z' := by
  simp only [List.mem_cons]
  rintro c (rfl | hc)
  · exact h0
  · exact h c hc

theorem notZ_append {l1 l2 : List Char} (h1 : ∀ c ∈ l1, c ≠ 'Z')
    (h2 : ∀ c ∈ l2, c ≠ 'Z') : ∀ c ∈ l1 ++ l2, c ≠ 'Z' := by
  simp only [List.mem_append]
  rintro c (hc | hc)
  · exact h1 c hc
  · exact h2 c hc

theorem mem_isoformat_ne_Z (t : PyDatetime) : ∀ c ∈ isoformatL t, c ≠ 'Z' := by
  obtain ⟨y, mo, d, hh, mi, s, us, tz⟩ := t
  have hmicro : ∀ c ∈ (if us = 0 then ([] : List Char)
      else '.' :: padDigits 6 us), c ≠ 'Z' := by
    split
    · exact notZ_nil
    · exact notZ_cons (by decide) (mem_padDigits_ne_Z _ _)
  have hoff : ∀ c ∈ (match tz with
      | none => ([] : List Char)
      | some o => (if o < 0 then '-' else '+') ::
          (padDigits 2 (o.natAbs / 60) ++ ':' :: padDigits 2 (o.natAbs % 60))),
      c ≠ 'Z' := by
    rcases tz with _ | o
    · exact notZ_nil
    · refine notZ_cons ?_ (notZ_append (mem_padDigits_ne_Z _ _)
        (notZ_cons (by decide) (mem_padDigits_ne_Z _ _)))
      split <;> decide
  exact notZ_append (mem_padDigits_ne_Z _ _) (notZ_cons (by decide)
    (notZ_append (mem_padDigits_ne_Z _ _) (notZ_cons (by decide)
      (notZ_append (mem_padDigits_ne_Z _ _) (notZ_cons (by decide)
        (notZ_append (mem_padDigits_ne_Z _ _) (notZ_cons (by decide)
          (notZ_append (mem_padDigits_ne_Z _ _) (notZ_cons (by decide)
            (notZ_append (mem_padDigits_ne_Z _ _)
              (notZ_append hmicro hoff)))))))))))

theorem replaceZ_isoformat (t : PyDatetime) :
    replaceZ t.isoformat = t.isoformat := by
  unfold replaceZ PyDatetime.isoformat
  exact congrArg String.mk (replaceZL_eq_self _ (mem_isoformat_ne_Z t))

/-! ### Helper lemmas: `fromisoformat ∘ isoformat` round-trip -/

theorem parseNDigits_padDigits_nil (k acc n : Nat) :
    parseNDigits k acc (padDigits k n) = some (acc * 10 ^ k + n % 10 ^ k, []) := by
  have := parseNDigits_padDigits k acc n []
  rwa [List.append_nil] at this

theorem parseHM_pads (n : Nat) (h23 : n / 60 ≤ 23) :
    parseHM (padDigits 2 (n / 60) ++ ':' :: padDigits 2 (n % 60)) =
      some (n, []) := by
  have h60 : n % 60 < 60 := Nat.mod_lt _ (by norm_num)
  simp only [parseHM, parseNDigits_padDigits, parseNDigits_padDigits_nil,
    Nat.zero_mul, Nat.zero_add,
    Nat.mod_eq_of_lt (show n / 60 < 10 ^ 2 by omega),
    Nat.mod_eq_of_lt (show n % 60 < 10 ^ 2 by omega)]
  rw [if_pos ⟨h23, by omega⟩]
  have : n / 60 * 60 + n % 60 = n := by omega
  rw [this]

theorem parseOffset_neg (o : Int) (ho : o < 0) (habs : o.natAbs ≤ 1439) :
    parseOffset ('-' ::
      (padDigits 2 (o.natAbs / 60) ++ ':' :: padDigits 2 (o.natAbs % 60))) =
      some (some o, []) := by
  simp only [parseOffset, parseHM_pads o.natAbs (by omega)]
  have : -((o.natAbs : Int)) = o := by omega
  rw [this]

theorem parseOffset_nonneg (o : Int) (ho : ¬o < 0) (habs : o.natAbs ≤ 1439) :
    parseOffset ('+' ::
      (padDigits 2 (o.natAbs / 60) ++ ':' :: padDigits 2 (o.natAbs % 60))) =
      some (some o, []) := by
  simp only [parseOffset, parseHM_pads o.natAbs (by omega)]
  have : ((o.natAbs : Int)) = o := by omega
  rw [this]

theorem daysInMonth_le (y m : Nat) : daysInMonth y m ≤ 31 := by
  unfold daysInMonth
  split
  · split <;> omega
  · split <;> omega

theorem fromisoformat_isoformat (t : PyDatetime) (h : t.validB = true) :
    fromisoformatL (isoformatL t) = some t := by
  obtain ⟨y, mo, d, hh, mi, s, us, tz⟩ := t
  have hb := h
  simp only [PyDatetime.validB, Bool.and_eq_true, decide_eq_true_eq] at h
  obtain ⟨⟨⟨⟨⟨⟨⟨⟨⟨⟨hy1, hy2⟩, hmo1⟩, hmo2⟩, hd1⟩, hd2⟩, hhr⟩, hmn⟩, hsc⟩,
    hmc⟩, htzm⟩ := h
  have hdim := daysInMonth_le y mo
  have hym : y % 10 ^ 4 = y := Nat.mod_eq_of_lt (by omega)
  have hmom : mo % 10 ^ 2 = mo := Nat.mod_eq_of_lt (by omega)
  have hdm : d % 10 ^ 2 = d := Nat.mod_eq_of_lt (by omega)
  have hhm : hh % 10 ^ 2 = hh := Nat.mod_eq_of_lt (by omega)
  have hmim : mi % 10 ^ 2 = mi := Nat.mod_eq_of_lt (by omega)
  have hsm : s % 10 ^ 2 = s := Nat.mod_eq_of_lt (by omega)
  have husm : us % 10 ^ 6 = us := Nat.mod_eq_of_lt (by omega)
  simp only [isoformatL, fromisoformatL, parseNDigits_padDigits,
    Nat.zero_mul, Nat.zero_add, hym, hmom, hdm, hhm, hmim, hsm]
  by_cases hus0 : us = 0
  · subst hus0
    simp only [reduceIte, List.nil_append]
    rcases tz with _ | o
    · simp [parseOffset, hb]
    · simp only [decide_eq_true_eq] at htzm
      by_cases ho : o < 0
      · simp [if_pos ho, parseOffset_neg o ho htzm, hb]
      · simp [if_neg ho, parseOffset_nonneg o ho htzm, hb]
  · simp only [if_neg hus0, List.cons_append, parseNDigits_padDigits,
      parseNDigits_padDigits_nil, Nat.zero_mul, Nat.zero_add, husm]
    rcases tz with _ | o
    · simp [parseOffset, hb]
    · simp only [decide_eq_true_eq] at htzm
      by_cases ho : o < 0
      · simp [if_pos ho, parseOffset_neg o ho htzm, hb]
      · simp [if_neg ho, parseOffset_nonneg o ho htzm, hb]

theorem fromisoformat_replaceZ_isoformat (t : PyDatetime) (h : t.validB = true) :
    PyDatetime.fromisoformat (replaceZ t.isoformat) = some t := by
  rw [replaceZ_isoformat]
  exact fromisoformat_isoformat t h

/-! ### Helper lemmas: stable descending sort -/

theorem mem_insertDesc (x y : ContextInput) (l : List ContextInput) :
    y ∈ insertDesc x l ↔ y = x ∨ y ∈ l := by
  induction l with
  | nil => simp [insertDesc]
  | cons z zs ih =>
      simp only [insertDesc]
      split
      · simp
      · simp only [List.mem_cons, ih]
        tauto

theorem mem_sortByRelevanceDesc (y : ContextInput) (l : List ContextInput) :
    y ∈ sortByRelevanceDesc l ↔ y ∈ l := by
  induction l with
  | nil => simp [sortByRelevanceDesc]
  | cons x xs ih => simp [sortByRelevanceDesc, mem_insertDesc, ih]

theorem sorted_insertDesc (x : ContextInput) (l : List ContextInput)
    (h : l.Pairwise (fun a b => b.relevance ≤ a.relevance)) :
    (insertDesc x l).Pairwise (fun a b => b.relevance ≤ a.relevance) := by
  induction l with
  | nil => simp [insertDesc]
  | cons z zs ih =>
      simp only [insertDesc]
      split
      · rename_i hzx
        refine List.Pairwise.cons ?_ h
        intro b hb
        rcases List.mem_cons.mp hb with rfl | hb
        · exact hzx
        · exact le_trans (List.rel_of_pairwise_cons h hb) hzx
      · rename_i hzx
        push_neg at hzx
        have hz := List.pairwise_cons.mp h
        refine List.Pairwise.cons ?_ (ih hz.2)
        intro b hb
        rcases (mem_insertDesc x b zs).mp hb with rfl | hb
        · exact le_of_lt hzx
        · exact hz.1 b hb

theorem sorted_sortByRelevanceDesc (l : List ContextInput) :
    (sortByRelevanceDesc l).Pairwise (fun a b => b.relevance ≤ a.relevance) := by
  induction l with
  | nil => simp [sortByRelevanceDesc]
  | cons x xs ih => exact sorted_insertDesc x _ ih

theorem filter_insertDesc (q : Rat) (x : ContextInput) (l : List ContextInput) :
    (insertDesc x l).filter (fun i => i.relevance == q) =
      if x.relevance = q then
        x :: l.filter (fun i => i.relevance == q)
      else l.filter (fun i => i.relevance == q) := by
  induction l with
  | nil =>
      by_cases hx : x.relevance = q <;>
        simp [insertDesc, List.filter_cons, hx]
  | cons z zs ih =>
      simp only [insertDesc]
      split
      · by_cases hx : x.relevance = q <;> simp [List.filter_cons, hx]
      · rename_i hzx
        push_neg at hzx
        simp only [List.filter_cons, ih]
        by_cases hx : x.relevance = q
        · have hzq : ¬z.relevance = q := by
            rw [← hx]; exact ne_of_gt hzx
          simp [hx, hzq]
        · simp [hx]

theorem filter_sortByRelevanceDesc (q : Rat) (l : List ContextInput) :
    (sortByRelevanceDesc l).filter (fun i => i.relevance == q) =
      l.filter (fun i => i.relevance == q) := by
  induction l with
  | nil => simp [sortByRelevanceDesc]
  | cons x xs ih =>
      simp only [sortByRelevanceDesc, filter_insertDesc, ih, List.filter_cons]
      by_cases hx : x.relevance = q <;> simp [hx]

theorem sortByRelevanceDesc_eq_of_sorted (l : List ContextInput)
    (h : l.Pairwise (fun a b => b.relevance ≤ a.relevance)) :
    sortByRelevanceDesc l = l := by
  induction l with
  | nil => rfl
  | cons x xs ih =>
      have hx := List.pairwise_cons.mp h
      simp only [sortByRelevanceDesc, ih hx.2]
      cases xs with
      | nil => rfl
      | cons y ys =>
          simp only [insertDesc, if_pos (hx.1 y (List.mem_cons_self ..))]

/-! ### Helper lemmas: the token-budget accumulation loop -/

theorem sumTokens_nil : sumTokens [] = 0 := rfl

theorem sumTokens_cons (a : ContextInput) (l : List ContextInput) :
    sumTokens (a :: l) = a.tokens + sumTokens l := by
  simp [sumTokens]

theorem takeLoop_relevance (m : Int) (l : List ContextInput) (t : Rat)
    (h : ∀ i ∈ l, t ≤ i.relevance) :
    ∀ total, ∀ i ∈ takeLoop m total l, t ≤ i.relevance := by
  induction l with
  | nil => intro total i hi; simp [takeLoop] at hi
  | cons u rest ih =>
      intro total i hi
      simp only [takeLoop] at hi
      split at hi
      · rcases List.mem_cons.mp hi with rfl | hi
        · exact h i (List.mem_cons_self ..)
        · exact ih (fun j hj => h j (List.mem_cons_of_mem _ hj)) _ i hi
      · split at hi
        · split at hi
          · rcases List.mem_singleton.mp hi with rfl
            exact h u (List.mem_cons_self ..)
          · simp at hi
        · simp at hi

theorem takeLoop_sum (m : Int) (l : List ContextInput) :
    ∀ total, total ≤ m → total + sumTokens (takeLoop m total l) ≤ m := by
  induction l with
  | nil => intro total h; simpa [takeLoop, sumTokens] using h
  | cons u rest ih =>
      intro total h
      simp only [takeLoop]
      split
      · rename_i hfit
        have hrec := ih (total + u.tokens) hfit
        rw [sumTokens_cons]
        omega
      · split
        · split
          · rename_i hrem
            simp only [sumTokens_cons, sumTokens_nil, ContextInput.init]
            rw [if_neg (by omega : ¬(m - total = 0))]
            omega
          · simpa [sumTokens] using h
        · simpa [sumTokens] using h

theorem takeLoop_spec (m : Int) (l : List ContextInput) :
    ∀ total : Int, ∃ k, k ≤ l.length ∧
      (∀ j, j < k → total + sumTokens (l.take (j + 1)) ≤ m) ∧
      ((k = l.length ∧ takeLoop m total l = l.take k) ∨
       (∃ hk : k < l.length,
          m < total + sumTokens (l.take k) + (l.get ⟨k, hk⟩).tokens ∧
          takeLoop m total l = l.take k ++
            (match (l.get ⟨k, hk⟩).data with
             | PyVal.pstr s =>
                 if 100 < m - (total + sumTokens (l.take k)) then
                   [{ data := PyVal.pstr (String.mk
                        (s.data.take ((m - (total + sumTokens (l.take k))) * 4).toNat))
                      relevance := (l.get ⟨k, hk⟩).relevance
                      tokens := m - (total + sumTokens (l.take k)) }]
                 else []
             | _ => []))) := by
  induction l with
  | nil =>
      intro total
      exact ⟨0, Nat.le_refl 0, fun j hj => absurd hj (Nat.not_lt_zero j),
        Or.inl ⟨rfl, rfl⟩⟩
  | cons u rest ih =>
      intro total
      by_cases hfit : total + u.tokens ≤ m
      · obtain ⟨k, hk_le, hk_fits, hk_end⟩ := ih (total + u.tokens)
        refine ⟨k + 1, by simpa using Nat.succ_le_succ hk_le, ?_, ?_⟩
        · intro j hj
          cases j with
          | zero => simpa [sumTokens_cons, sumTokens_nil] using hfit
          | succ j' =>
              have := hk_fits j' (by omega)
              simpa [List.take_succ_cons, sumTokens_cons] using by omega
        · rcases hk_end with ⟨hlen, heq⟩ | ⟨hklt, hover, heq⟩
          · refine Or.inl ⟨by simp [hlen], ?_⟩
            simp only [takeLoop, if_pos hfit, List.take_succ_cons, heq]
          · refine Or.inr ⟨by simpa using Nat.succ_lt_succ hklt, ?_, ?_⟩
            · simp only [List.get_eq_getElem] at hover
              simp only [List.take_succ_cons, sumTokens_cons,
                List.get_eq_getElem, List.getElem_cons_succ]
              omega
            · simp only [takeLoop, if_pos hfit, List.take_succ_cons, heq,
                List.get_cons_succ, sumTokens_cons, List.cons_append]
              have harith : m - (total + u.tokens + sumTokens (rest.take k)) =
                  m - (total + (u.tokens + sumTokens (rest.take k))) := by omega
              rw [harith]
      · refine ⟨0, Nat.zero_le _, fun j hj => absurd hj (Nat.not_lt_zero j),
          Or.inr ⟨Nat.succ_pos _, ?_, ?_⟩⟩
        · simp only [List.take_zero, sumTokens_nil, List.get_eq_getElem,
            List.getElem_cons_zero]
          omega
        · simp only [takeLoop, if_neg hfit, List.take_zero, List.nil_append,
            sumTokens_nil, List.get_eq_getElem, List.getElem_cons_zero,
            Int.add_zero]
          cases hu : u.data with
          | pstr s =>
              by_cases hrem : 100 < m - total
              · simp only [hrem, ContextInput.init, if_true]
                simp only [if_neg (show ¬(m - total = 0) by omega)]
              · simp [hrem]
          | pnone => rfl
          | pbool b => rfl
          | pint n => rfl
          | plist xs => rfl
          | pdict kvs => rfl

/-! ### Helper lemmas: dicts -/

theorem dictGet?_cons {α : Type} (k0 : String) (v0 : α) (e : Dict α)
    (k : String) :
    dictGet? ((k0, v0) :: e) k = if k0 = k then some v0 else dictGet? e k := by
  by_cases h : k0 = k <;> simp [dictGet?, List.find?_cons, h]

theorem dictGet?_set_self {α : Type} (d : Dict α) (k : String) (v : α) :
    dictGet? (dictSet d k v) k = some v := by
  induction d with
  | nil => simp [dictSet, dictGet?]
  | cons p rest ih =>
      obtain ⟨k', v'⟩ := p
      simp only [dictSet]
      split
      · simp [dictGet?_cons]
      · rename_i hne
        rw [dictGet?_cons, if_neg hne, ih]

theorem dictGet?_set_ne {α : Type} (d : Dict α) (k : String) (v : α)
    (k' : String) (h : k' ≠ k) :
    dictGet? (dictSet d k v) k' = dictGet? d k' := by
  induction d with
  | nil =>
      rw [show dictSet [] k v = [(k, v)] from rfl, dictGet?_cons,
        if_neg (show ¬k = k' from fun hh => h hh.symm)]
  | cons p rest ih =>
      obtain ⟨k0, v0⟩ := p
      simp only [dictSet]
      split
      · rename_i hk0
        rw [dictGet?_cons, dictGet?_cons,
          if_neg (show ¬k = k' from fun hh => h hh.symm),
          if_neg (show ¬k0 = k' from fun hh => h (hk0 ▸ hh).symm)]
      · rw [dictGet?_cons, dictGet?_cons, ih]

theorem dictGet?_eq_none_of_not_mem {α : Type} (d : Dict α) (k : String)
    (h : k ∉ d.map Prod.fst) : dictGet? d k = none := by
  induction d with
  | nil => rfl
  | cons p rest ih =>
      obtain ⟨k0, v0⟩ := p
      simp only [List.map_cons, List.mem_cons] at h
      push_neg at h
      rw [dictGet?_cons, if_neg (fun hh => h.1 hh.symm), ih h.2]

theorem dictGet?_update {α : Type} (d e : Dict α) (k : String)
    (he : (e.map Prod.fst).Nodup) :
    dictGet? (dictUpdate d e) k = (dictGet? e k).or (dictGet? d k) := by
  induction e generalizing d with
  | nil => simp [dictUpdate, dictGet?]
  | cons p e' ih =>
      obtain ⟨k0, v0⟩ := p
      simp only [List.map_cons, List.nodup_cons] at he
      have hupd : dictUpdate d ((k0, v0) :: e') =
          dictUpdate (dictSet d k0 v0) e' := rfl
      rw [hupd, ih _ he.2, dictGet?_cons]
      by_cases hk : k0 = k
      · subst hk
        have : dictGet? e' k0 = none :=
          dictGet?_eq_none_of_not_mem _ _ he.1
        simp [this, dictGet?_set_self]
      · rw [if_neg hk, dictGet?_set_ne _ _ _ _ (fun hh => hk hh.symm)]

theorem dictContains_set_self {α : Type} (d : Dict α) (k : String) (v : α) :
    dictContains (dictSet d k v) k = true := by
  simp [dictContains, dictGet?_set_self]

theorem dictContains_set_other {α : Type} (d : Dict α) (k : String) (v : α)
    (k' : String) (h : k' ≠ k) :
    dictContains (dictSet d k v) k' = dictContains d k' := by
  simp [dictContains, dictGet?_set_ne _ _ _ _ h]

/-! ### Helper lemmas: input serialization -/

theorem from_dict_to_dict_input (i : ContextInput)
    (h : i.tokens = 0 → estimateTokens i.data = 0) :
    ContextInput.from_dict (ContextInput.to_dict i) = i := by
  unfold ContextInput.from_dict ContextInput.to_dict ContextInput.init
  simp only [Option.getD_some]
  by_cases ht : i.tokens = 0
  · rw [if_pos ht, h ht, ← ht]
  · rw [if_neg ht]

theorem map_from_dict_to_dict (l : List ContextInput)
    (h : ∀ i ∈ l, i.tokens = 0 → estimateTokens i.data = 0) :
    (l.map ContextInput.to_dict).map ContextInput.from_dict = l := by
  induction l with
  | nil => rfl
  | cons i rest ih =>
      simp only [List.map_cons,
        from_dict_to_dict_input i (h i (List.mem_cons_self ..)),
        ih (fun j hj => h j (List.mem_cons_of_mem _ hj))]

/-! ### Helper lemmas: router strategy evaluation -/

theorem selectCost_eq :
    Router.selectByStrategy "cost_optimized" = "gpt-3.5-turbo" := by
  have h1 : Router.costOf "gpt-3.5-turbo" < Router.costOf "gpt-4" := by
    rw [show Router.costOf "gpt-3.5-turbo" = 0.0015 from rfl,
      show Router.costOf "gpt-4" = 0.03 from rfl]
    norm_num
  have h2 : ¬Router.costOf "claude-3-opus" < Router.costOf "gpt-3.5-turbo" := by
    rw [show Router.costOf "claude-3-opus" = 0.015 from rfl,
      show Router.costOf "gpt-3.5-turbo" = 0.0015 from rfl]
    norm_num
  have h3 : ¬Router.costOf "claude-3-sonnet" < Router.costOf "gpt-3.5-turbo" := by
    rw [show Router.costOf "claude-3-sonnet" = 0.003 from rfl,
      show Router.costOf "gpt-3.5-turbo" = 0.0015 from rfl]
    norm_num
  show ((["gpt-3.5-turbo", "claude-3-opus", "claude-3-sonnet"] : List String).foldl
    (fun best y => if Router.costOf y < Router.costOf best then y else best)
    "gpt-4") = "gpt-3.5-turbo"
  simp only [List.foldl]
  rw [if_pos h1, if_neg h2, if_neg h3]

theorem selectQuality_eq :
    Router.selectByStrategy "quality_optimized" = "gpt-4" := by
  have h1 : ¬Router.qualityOf "gpt-4" < Router.qualityOf "gpt-3.5-turbo" := by
    rw [show Router.qualityOf "gpt-4" = 0.95 from rfl,
      show Router.qualityOf "gpt-3.5-turbo" = 0.75 from rfl]
    norm_num
  have h2 : ¬Router.qualityOf "gpt-4" < Router.qualityOf "claude-3-opus" := by
    rw [show Router.qualityOf "gpt-4" = 0.95 from rfl,
      show Router.qualityOf "claude-3-opus" = 0.95 from rfl]
    norm_num
  have h3 : ¬Router.qualityOf "gpt-4" < Router.qualityOf "claude-3-sonnet" := by
    rw [show Router.qualityOf "gpt-4" = 0.95 from rfl,
      show Router.qualityOf "claude-3-sonnet" = 0.85 from rfl]
    norm_num
  show ((["gpt-3.5-turbo", "claude-3-opus", "claude-3-sonnet"] : List String).foldl
    (fun best y => if Router.qualityOf best < Router.qualityOf y then y else best)
    "gpt-4") = "gpt-4"
  simp only [List.foldl]
  rw [if_neg h1, if_neg h2, if_neg h3]

theorem selectSpeed_eq :
    Router.selectByStrategy "speed_optimized" = "gpt-3.5-turbo" := by
  have h1 : Router.speedOf "gpt-4" < Router.speedOf "gpt-3.5-turbo" := by
    rw [show Router.speedOf "gpt-4" = 0.6 from rfl,
      show Router.speedOf "gpt-3.5-turbo" = 0.9 from rfl]
    norm_num
  have h2 : ¬Router.speedOf "gpt-3.5-turbo" < Router.speedOf "claude-3-opus" := by
    rw [show Router.speedOf "gpt-3.5-turbo" = 0.9 from rfl,
      show Router.speedOf "claude-3-opus" = 0.7 from rfl]
    norm_num
  have h3 : ¬Router.speedOf "gpt-3.5-turbo" < Router.speedOf "claude-3-sonnet" := by
    rw [show Router.speedOf "gpt-3.5-turbo" = 0.9 from rfl,
      show Router.speedOf "claude-3-sonnet" = 0.85 from rfl]
    norm_num
  show ((["gpt-3.5-turbo", "claude-3-opus", "claude-3-sonnet"] : List String).foldl
    (fun best y => if Router.speedOf best < Router.speedOf y then y else best)
    "gpt-4") = "gpt-3.5-turbo"
  simp only [List.foldl]
  rw [if_pos h1, if_neg h2, if_neg h3]

theorem selectDefault_eq (s : String) (h1 : s ≠ "cost_optimized")
    (h2 : s ≠ "quality_optimized") (h3 : s ≠ "speed_optimized") :
    Router.selectByStrategy s = "gpt-3.5-turbo" := by
  unfold Router.selectByStrategy
  rw [if_neg h1, if_neg h2, if_neg h3]

theorem selectByStrategy_in_table (s : String) :
    ∃ sp, Router.getSpec? (Router.selectByStrategy s) = some sp := by
  by_cases h1 : s = "cost_optimized"
  · subst h1; rw [selectCost_eq]; exact ⟨_, rfl⟩
  · by_cases h2 : s = "quality_optimized"
    · subst h2; rw [selectQuality_eq]; exact ⟨_, rfl⟩
    · by_cases h3 : s = "speed_optimized"
      · subst h3; rw [selectSpeed_eq]; exact ⟨_, rfl⟩
      · rw [selectDefault_eq s h1 h2 h3]; exact ⟨_, rfl⟩

theorem cost_minimal :
    ∀ p ∈ Router.MODEL_SPECS,
      Router.costOf "gpt-3.5-turbo" ≤ p.2.cost_per_1k_input := by
  intro p hp
  simp only [Router.MODEL_SPECS, List.mem_cons, List.not_mem_nil,
    or_false] at hp
  rcases hp with rfl | rfl | rfl | rfl <;>
    rw [show Router.costOf "gpt-3.5-turbo" = 0.0015 from rfl] <;> norm_num

theorem quality_maximal :
    ∀ p ∈ Router.MODEL_SPECS,
      p.2.quality ≤ Router.qualityOf "gpt-4" := by
  intro p hp
  simp only [Router.MODEL_SPECS, List.mem_cons, List.not_mem_nil,
    or_false] at hp
  rcases hp with rfl | rfl | rfl | rfl <;>
    rw [show Router.qualityOf "gpt-4" = 0.95 from rfl] <;> norm_num

theorem speed_maximal :
    ∀ p ∈ Router.MODEL_SPECS,
      p.2.speed ≤ Router.speedOf "gpt-3.5-turbo" := by
  intro p hp
  simp only [Router.MODEL_SPECS, List.mem_cons, List.not_mem_nil,
    or_false] at hp
  rcases hp with rfl | rfl | rfl | rfl <;>
    rw [show Router.speedOf "gpt-3.5-turbo" = 0.9 from rfl] <;> norm_num

/-! ### Claims -/

/-- C1: for every Context whose fields lie in the serializable universe
(and that is constructible by the code: non-empty `id`, a datetime with
valid field ranges, inputs produced by the `ContextInput` constructor —
whose stored `tokens` is zero only when its estimate is zero),
`fromJson(toJson(ctx))` reproduces every field of `ctx`, including the
`createdAt` timestamp, exactly. -/
theorem C1_from_json_to_json_roundtrip (freshId : String) (now : PyDatetime)
    (ctx : Context) (hid : ctx.id ≠ "") (hts : ctx.created_at.validB = true)
    (hinp : ∀ i ∈ ctx.inputs, i.tokens = 0 → estimateTokens i.data = 0) :
    Context.from_json freshId now (Context.to_json ctx) = Except.ok ctx := by
  unfold Context.from_json Context.from_dict Context.to_json Context.to_dict
  simp only [Context.init, Option.getD_some,
    map_from_dict_to_dict ctx.inputs hinp,
    fromisoformat_replaceZ_isoformat ctx.created_at hts, if_neg hid]

/-- C1 witness: the round trip at a concrete fully-populated Context. -/
theorem C1_roundtrip_witness :
    Context.from_json "fresh-uuid" tNow2 (Context.to_json ctx0) =
      Except.ok ctx0 :=
  C1_from_json_to_json_roundtrip "fresh-uuid" tNow2 ctx0 (by decide) (by decide)
    (by decide)

/-- C2: every pruned unit has relevance ≥ the threshold, and with a
(non-negative, per §3 of the spec) `maxTokens` bound the total token
estimate of the result is ≤ the bound. -/
theorem C2_prune_postconditions (inputs : List ContextInput) (mt : Option Int)
    (t : Rat) (hm : ∀ m, mt = some m → 0 ≤ m) :
    (∀ i ∈ Pruner.prune inputs mt t, t ≤ i.relevance) ∧
    (∀ m, mt = some m → sumTokens (Pruner.prune inputs mt t) ≤ m) := by
  have hfil : ∀ i ∈ sortByRelevanceDesc
      (inputs.filter (fun inp => t ≤ inp.relevance)), t ≤ i.relevance := by
    intro i hi
    rw [mem_sortByRelevanceDesc] at hi
    exact of_decide_eq_true (List.mem_filter.mp hi).2
  constructor
  · intro i hi
    cases mt with
    | none => exact hfil i hi
    | some m => exact takeLoop_relevance m _ t hfil 0 i hi
  · intro m hmt
    subst hmt
    have := takeLoop_sum m
      (sortByRelevanceDesc (inputs.filter (fun inp => t ≤ inp.relevance)))
      0 (hm m rfl)
    show sumTokens (takeLoop m 0 _) ≤ m
    omega

/-- C2 witness: pruning two concrete inputs under a 10-token budget at
threshold 0. -/
theorem C2_prune_postconditions_witness :
    (∀ i ∈ Pruner.prune [sampleInput, sampleInput2] (some 10) 0,
      (0 : Rat) ≤ i.relevance) ∧
    (∀ m, (some 10 : Option Int) = some m →
      sumTokens (Pruner.prune [sampleInput, sampleInput2] (some 10) 0) ≤ m) :=
  C2_prune_postconditions [sampleInput, sampleInput2] (some 10) 0
    (by intro m hm; injection hm with hm; omega)

/-- C3: with a `maxTokens` bound, prune takes a greedy prefix of the
relevance-sorted survivors; the first unit that does not fit is replaced by
exactly one truncated copy iff its data is a string and more than 100
tokens of budget remain — the copy keeps a `remaining * 4`-character prefix
and has `tokenEstimate` equal to the remaining budget — and every later
unit is dropped. -/
theorem C3_partial_truncation (inputs : List ContextInput) (m : Int)
    (t : Rat) :
    let s := sortByRelevanceDesc (inputs.filter (fun inp => t ≤ inp.relevance))
    ∃ k, k ≤ s.length ∧
      (∀ j, j < k → sumTokens (s.take (j + 1)) ≤ m) ∧
      ((k = s.length ∧ Pruner.prune inputs (some m) t = s.take k) ∨
       (∃ hk : k < s.length,
          m < sumTokens (s.take k) + (s.get ⟨k, hk⟩).tokens ∧
          Pruner.prune inputs (some m) t = s.take k ++
            (match (s.get ⟨k, hk⟩).data with
             | PyVal.pstr str =>
                 if 100 < m - sumTokens (s.take k) then
                   [{ data := PyVal.pstr (String.mk
                        (str.data.take ((m - sumTokens (s.take k)) * 4).toNat))
                      relevance := (s.get ⟨k, hk⟩).relevance
                      tokens := m - sumTokens (s.take k) }]
                 else []
             | _ => []))) := by
  intro s
  obtain ⟨k, hk_le, hfits, hend⟩ := takeLoop_spec m s 0
  refine ⟨k, hk_le, ?_, ?_⟩
  · intro j hj
    have := hfits j hj
    omega
  · have hprune : Pruner.prune inputs (some m) t = takeLoop m 0 s := rfl
    rcases hend with ⟨h1, h2⟩ | ⟨hk, hover, heq⟩
    · exact Or.inl ⟨h1, by rw [hprune, h2]⟩
    · refine Or.inr ⟨hk, by omega, ?_⟩
      rw [hprune, heq]
      simp only [Int.zero_add]

/-- C4: without a token bound, prune returns the threshold survivors in
descending relevance order, stably (units of each exact relevance keep
their original relative order), and pruning is idempotent. -/
theorem C4_sorted_stable_idempotent (inputs : List ContextInput) (t : Rat) :
    (Pruner.prune inputs none t).Pairwise
      (fun a b => b.relevance ≤ a.relevance) ∧
    (∀ q : Rat, (Pruner.prune inputs none t).filter
        (fun i => i.relevance == q) =
      (inputs.filter (fun inp => t ≤ inp.relevance)).filter
        (fun i => i.relevance == q)) ∧
    Pruner.prune (Pruner.prune inputs none t) none t =
      Pruner.prune inputs none t := by
  have hpr : Pruner.prune inputs none t =
      sortByRelevanceDesc (inputs.filter (fun inp => t ≤ inp.relevance)) := rfl
  refine ⟨?_, ?_, ?_⟩
  · rw [hpr]
    exact sorted_sortByRelevanceDesc _
  · intro q
    rw [hpr]
    exact filter_sortByRelevanceDesc q _
  · rw [hpr]
    have hself : (sortByRelevanceDesc
        (inputs.filter (fun inp => t ≤ inp.relevance))).filter
        (fun inp => t ≤ inp.relevance) =
        sortByRelevanceDesc (inputs.filter (fun inp => t ≤ inp.relevance)) := by
      rw [List.filter_eq_self]
      intro a ha
      rw [mem_sortByRelevanceDesc] at ha
      exact (List.mem_filter.mp ha).2
    show sortByRelevanceDesc _ = _
    rw [hself]
    exact sortByRelevanceDesc_eq_of_sorted _ (sorted_sortByRelevanceDesc _)

/-- C5 counterexample: the claim promises the fixed default balanced model
for "any other value" of the strategy; but `strategy=""` is falsy in
`if strategy and "model" not in routing:` (router.py:90), so the routing is
returned unchanged and no model is set at all. -/
theorem C5_empty_strategy_counterexample :
    Router.route [] none none (some "") = [] ∧
    dictGet? (Router.route [] none none (some "")) "model" = none :=
  ⟨rfl, rfl⟩

/-- C5 (amended to non-empty strategy strings): with no model in the
current routing, a non-empty strategy resolves the model —
`cost_optimized` to the table entry with minimal `costPer1kInput`
(`"gpt-3.5-turbo"`), `quality_optimized` to maximal `quality` (the tie
between the two 0.95 entries resolves to the first-iterated `"gpt-4"`),
`speed_optimized` to maximal `speed` (`"gpt-3.5-turbo"`), and any other
non-empty value to the fixed default `"gpt-3.5-turbo"` — and the provider
is set from the table for the resolved model. -/
theorem C5_strategy_selection (cur : Dict String) (s : String) (hs : s ≠ "")
    (hnm : dictContains cur "model" = false) :
    (∃ sp, Router.getSpec? (Router.selectByStrategy s) = some sp ∧
       dictGet? (Router.route cur none none (some s)) "model" =
         some (Router.selectByStrategy s) ∧
       dictGet? (Router.route cur none none (some s)) "provider" =
         some sp.provider) ∧
    (s = "cost_optimized" → Router.selectByStrategy s = "gpt-3.5-turbo" ∧
       ∀ p ∈ Router.MODEL_SPECS,
         Router.costOf (Router.selectByStrategy s) ≤ p.2.cost_per_1k_input) ∧
    (s = "quality_optimized" → Router.selectByStrategy s = "gpt-4" ∧
       ∀ p ∈ Router.MODEL_SPECS,
         p.2.quality ≤ Router.qualityOf (Router.selectByStrategy s)) ∧
    (s = "speed_optimized" → Router.selectByStrategy s = "gpt-3.5-turbo" ∧
       ∀ p ∈ Router.MODEL_SPECS,
         p.2.speed ≤ Router.speedOf (Router.selectByStrategy s)) ∧
    (s ≠ "cost_optimized" → s ≠ "quality_optimized" →
       s ≠ "speed_optimized" → Router.selectByStrategy s = "gpt-3.5-turbo") := by
  obtain ⟨sp, hsp⟩ := selectByStrategy_in_table s
  have hroute : Router.route cur none none (some s) =
      dictSet (dictSet cur "model" (Router.selectByStrategy s))
        "provider" sp.provider := by
    simp only [Router.route]
    rw [if_pos ⟨hs, hnm⟩, hsp]
  refine ⟨⟨sp, hsp, ?_, ?_⟩, ?_, ?_, ?_, ?_⟩
  · rw [hroute, dictGet?_set_ne _ _ _ _ (by decide), dictGet?_set_self]
  · rw [hroute, dictGet?_set_self]
  · intro h
    subst h
    rw [selectCost_eq]
    exact ⟨rfl, cost_minimal⟩
  · intro h
    subst h
    rw [selectQuality_eq]
    exact ⟨rfl, quality_maximal⟩
  · intro h
    subst h
    rw [selectSpeed_eq]
    exact ⟨rfl, speed_maximal⟩
  · exact selectDefault_eq s

/-- C5 witness: strategy selection at the four concrete strategy kinds over
the empty current routing. -/
theorem C5_strategy_selection_witness :
    dictGet? (Router.route [] none none (some "cost_optimized")) "model" =
      some "gpt-3.5-turbo" ∧
    dictGet? (Router.route [] none none (some "quality_optimized")) "model" =
      some "gpt-4" ∧
    dictGet? (Router.route [] none none (some "speed_optimized")) "model" =
      some "gpt-3.5-turbo" ∧
    dictGet? (Router.route [] none none (some "balanced")) "model" =
      some "gpt-3.5-turbo" ∧
    dictGet? (Router.route [] none none (some "cost_optimized")) "provider" =
      some "openai" := by
  obtain ⟨⟨spc, hspc, hmc, hpc⟩, hcost, _, _, _⟩ :=
    C5_strategy_selection [] "cost_optimized" (by decide) rfl
  obtain ⟨⟨spq, hspq, hmq, _⟩, _, hqual, _, _⟩ :=
    C5_strategy_selection [] "quality_optimized" (by decide) rfl
  obtain ⟨⟨sps, hsps, hms, _⟩, _, _, hspeed, _⟩ :=
    C5_strategy_selection [] "speed_optimized" (by decide) rfl
  obtain ⟨⟨spb, hspb, hmb, _⟩, _, _, _, hdef⟩ :=
    C5_strategy_selection [] "balanced" (by decide) rfl
  refine ⟨?_, ?_, ?_, ?_, ?_⟩
  · rw [hmc, (hcost rfl).1]
  · rw [hmq, (hqual rfl).1]
  · rw [hms, (hspeed rfl).1]
  · rw [hmb, hdef (by decide) (by decide) (by decide)]
  · rw [hpc]
    have : spc = ⟨"openai", 4096, 0.0015, 0.002, 0.75, 0.9⟩ := by
      have h := hspc
      rw [(hcost rfl).1] at h
      exact Option.some.inj (h.symm.trans rfl)
    rw [this]

/-- C6 counterexample: the claim says a given model always sets
`routing.model`; but `model=""` is falsy in `if model:` (router.py:80), so
the call leaves the routing unchanged and sets nothing. -/
theorem C6_empty_model_counterexample :
    Router.route [] (some "") none none = [] ∧
    dictGet? (Router.route [] (some "") none none) "model" = none :=
  ⟨rfl, rfl⟩

/-- C6 (amended to non-empty argument strings): a given non-empty model
sets `routing.model` and, when the model is in the capability table, also
`routing.provider` from the table; a non-empty provider given in the same
call overwrites that provider; an unrecognized model is passed through
without enrichment (`provider` untouched); a strategy never changes a model
that is already present (given explicitly or present in the current
routing); and the operation is a total function (never raises). -/
theorem C6_route_behavior (cur : Dict String)
    (model provider strategy : Option String) :
    (∀ m, model = some m → m ≠ "" →
       dictGet? (Router.route cur model provider strategy) "model" = some m) ∧
    (∀ p m, provider = some p → p ≠ "" → model = some m → m ≠ "" →
       dictGet? (Router.route cur model provider strategy) "provider" =
         some p) ∧
    (∀ m sp, model = some m → m ≠ "" → Router.getSpec? m = some sp →
       (provider = none ∨ provider = some "") →
       dictGet? (Router.route cur model provider strategy) "provider" =
         some sp.provider) ∧
    (∀ m, model = some m → m ≠ "" → Router.getSpec? m = none →
       (provider = none ∨ provider = some "") →
       dictGet? (Router.route cur model provider strategy) "provider" =
         dictGet? cur "provider") ∧
    ((model = none ∨ model = some "") → dictContains cur "model" = true →
       dictGet? (Router.route cur model provider strategy) "model" =
         dictGet? cur "model") := by
  refine ⟨?_, ?_, ?_, ?_, ?_⟩
  · rintro m rfl hne
    rcases hsp : Router.getSpec? m with _ | sp <;>
      rcases provider with _ | p <;>
        rcases strategy with _ | st <;>
          simp only [Router.route, hsp, if_pos hne] <;>
          (try split_ifs) <;>
          simp_all [dictGet?_set_self, dictGet?_set_ne, dictContains_set_self,
            dictContains_set_other, dictContains]
  · rintro p m rfl hpne rfl hmne
    rcases hsp : Router.getSpec? m with _ | sp <;>
      rcases strategy with _ | st <;>
        simp only [Router.route, hsp, if_pos hmne, if_pos hpne] <;>
        (try split_ifs) <;>
        simp_all [dictGet?_set_self, dictGet?_set_ne, dictContains_set_self,
          dictContains_set_other, dictContains]
  · rintro m sp rfl hne hsp hprov
    rcases hprov with rfl | rfl <;>
      rcases strategy with _ | st <;>
        simp only [Router.route, hsp, if_pos hne] <;>
        (try split_ifs) <;>
        simp_all [dictGet?_set_self, dictGet?_set_ne, dictContains_set_self,
          dictContains_set_other, dictContains]
  · rintro m rfl hne hsp hprov
    rcases hprov with rfl | rfl <;>
      rcases strategy with _ | st <;>
        simp only [Router.route, hsp, if_pos hne] <;>
        (try split_ifs) <;>
        simp_all [dictGet?_set_self, dictGet?_set_ne, dictContains_set_self,
          dictContains_set_other, dictContains]
  · rintro hmodel hcont
    rcases hmodel with rfl | rfl <;>
      rcases provider with _ | p <;>
        rcases strategy with _ | st <;>
          simp only [Router.route] <;>
          (try split_ifs) <;>
          simp_all [dictGet?_set_self, dictGet?_set_ne, dictContains_set_self,
            dictContains_set_other, dictContains]

/-- C6 witness: concrete routing calls — explicit model with table
enrichment, explicit provider overwrite, unrecognized-model passthrough,
and strategy deferring to a model already present in the routing. -/
theorem C6_route_behavior_witness :
    dictGet? (Router.route [("provider", "azure")] (some "gpt-4") none none)
      "model" = some "gpt-4" ∧
    dictGet? (Router.route [("provider", "azure")] (some "gpt-4") none none)
      "provider" = some "openai" ∧
    dictGet? (Router.route [] (some "gpt-4") (some "azure") none)
      "provider" = some "azure" ∧
    dictGet? (Router.route [("provider", "azure")] (some "custom-model")
      none none) "provider" = some "azure" ∧
    dictGet? (Router.route [("model", "claude-3-opus")] none none
      (some "cost_optimized")) "model" = some "claude-3-opus" := by
  refine ⟨?_, ?_, ?_, ?_, ?_⟩
  · exact (C6_route_behavior [("provider", "azure")] (some "gpt-4") none
      none).1 "gpt-4" rfl (by decide)
  · exact ((C6_route_behavior [("provider", "azure")] (some "gpt-4") none
      none).2.2.1 "gpt-4" ⟨"openai", 8192, 0.03, 0.06, 0.95, 0.6⟩ rfl
      (by decide) rfl (Or.inl rfl))
  · exact ((C6_route_behavior [] (some "gpt-4") (some "azure") none).2.1
      "azure" "gpt-4" rfl (by decide) rfl (by decide))
  · exact ((C6_route_behavior [("provider", "azure")] (some "custom-model")
      none none).2.2.2.1 "custom-model" rfl (by decide) rfl
      (Or.inl rfl)).trans rfl
  · exact ((C6_route_behavior [("model", "claude-3-opus")] none none
      (some "cost_optimized")).2.2.2.2 (Or.inl rfl) rfl).trans rfl

/-- C7 counterexample: merging a Context with `maxTokens = 100` with one
whose `maxTokens = 0` keeps 100, although `min(100, 0) = 0`: the code's
`if other.constraints.get("max_tokens"):` treats the 0 as falsy and skips
the minimum-merge entirely. -/
theorem C7_merge_zero_counterexample :
    dictGet? ((Context.merge "m-id" tNow ctxA ctxB).constraints)
      "max_tokens" = some 100 ∧ min (100 : Int) 0 ≠ 100 :=
  ⟨rfl, by decide⟩

/-- C7 (amended: `other`'s `maxTokens` participates only when non-zero —
a falsy value in `other` is ignored): merge takes the minimum of both
bounds when both are set and the other's is non-zero, adopts the other's
when only it is set (and non-zero), and keeps self's constraints unchanged
when the other's is absent or zero; inputs concatenate self-first with no
deduplication; routing and metadata are self's overlaid with other's
(other wins); the id is the fresh one and `parentId` is unset. -/
theorem C7_merge_semantics (freshId : String) (now : PyDatetime)
    (a b : Context) :
    (∀ v u, dictGet? b.constraints "max_tokens" = some v → v ≠ 0 →
       dictGet? a.constraints "max_tokens" = some u →
       dictGet? ((Context.merge freshId now a b).constraints) "max_tokens" =
         some (min u v)) ∧
    (∀ v, dictGet? b.constraints "max_tokens" = some v → v ≠ 0 →
       dictGet? a.constraints "max_tokens" = none →
       dictGet? ((Context.merge freshId now a b).constraints) "max_tokens" =
         some v) ∧
    ((dictGet? b.constraints "max_tokens" = none ∨
        dictGet? b.constraints "max_tokens" = some 0) →
       (Context.merge freshId now a b).constraints = a.constraints) ∧
    (Context.merge freshId now a b).inputs = a.inputs ++ b.inputs ∧
    ((b.routing.map Prod.fst).Nodup → ∀ k,
       dictGet? (Context.merge freshId now a b).routing k =
         (dictGet? b.routing k).or (dictGet? a.routing k)) ∧
    ((b.metadata.map Prod.fst).Nodup → ∀ k,
       dictGet? (Context.merge freshId now a b).metadata k =
         (dictGet? b.metadata k).or (dictGet? a.metadata k)) ∧
    (Context.merge freshId now a b).id = freshId ∧
    (Context.merge freshId now a b).parent_id = none := by
  have hshape : (Context.merge freshId now a b).inputs = a.inputs ++ b.inputs ∧
      (Context.merge freshId now a b).routing =
        dictUpdate a.routing b.routing ∧
      (Context.merge freshId now a b).metadata =
        dictUpdate a.metadata b.metadata ∧
      (Context.merge freshId now a b).id = freshId ∧
      (Context.merge freshId now a b).parent_id = none := by
    unfold Context.merge Context.init
    rcases dictGet? b.constraints "max_tokens" with _ | v
    · simp
    · by_cases hv : v ≠ 0
      · simp only [if_pos hv]
        by_cases hcont : dictContains a.constraints "max_tokens" = true <;>
          simp [hcont]
      · simp only [if_neg hv]
        simp
  refine ⟨?_, ?_, ?_, hshape.1, ?_, ?_, hshape.2.2.2.1, hshape.2.2.2.2⟩
  · intro v u hbv hvne hau
    simp [Context.merge, Context.init, hbv, hvne, dictContains, hau,
      dictGet?_set_self]
  · intro v hbv hvne hau
    simp [Context.merge, Context.init, hbv, hvne, dictContains, hau,
      dictGet?_set_self]
  · intro h
    rcases h with h | h <;>
      simp [Context.merge, Context.init, h]
  · intro hnd k
    rw [hshape.2.1]
    exact dictGet?_update _ _ _ hnd
  · intro hnd k
    rw [hshape.2.2.1]
    exact dictGet?_update _ _ _ hnd

/-- C7 witness: merging two concrete Contexts whose bounds are 4000 and
2000 yields the minimum 2000, concatenated inputs, other-wins routing, and
an unset parent. -/
theorem C7_merge_semantics_witness :
    dictGet? ((Context.merge "m-id" tNow ctx0 ctx1).constraints)
      "max_tokens" = some 2000 ∧
    (Context.merge "m-id" tNow ctx0 ctx1).inputs = ctx0.inputs ++ ctx1.inputs ∧
    dictGet? (Context.merge "m-id" tNow ctx0 ctx1).routing "model" =
      some "claude-3-opus" ∧
    (Context.merge "m-id" tNow ctx0 ctx1).parent_id = none := by
  obtain ⟨h1, _, _, h4, h5, _, _, h8⟩ :=
    C7_merge_semantics "m-id" tNow ctx0 ctx1
  refine ⟨?_, h4, ?_, h8⟩
  · have := h1 2000 4000 rfl (by decide) rfl
    rw [this]
    decide
  · rw [h5 (by decide) "model"]
    rfl

/-- C8: `extend` derives a child without touching the parent — in this
pure embedding `extend` is a function of the parent's value and all
inherited containers are value (deep) copies, so the parent is structurally
unchanged; the child's `parentId` is the parent's `id`, its `id` is the
fresh UUID (distinct from the parent's, as `uuid4` guarantees), `intent`
defaults to the parent's when not given (or empty: `intent or
self.intent`), and constraints/routing/output/metadata/inputs equal the
parent's. Stated for an override-free call (`kwargs = []`); `merge` is
likewise a pure function of its two arguments (see `C7_merge_semantics`). -/
theorem C8_extend_no_mutation (freshId : String) (now : PyDatetime)
    (p : Context) (intent : Option String) (hfresh : freshId ≠ p.id) :
    (Context.extend freshId now p intent []).parent_id = some p.id ∧
    (Context.extend freshId now p intent []).id = freshId ∧
    (Context.extend freshId now p intent []).id ≠ p.id ∧
    (intent = none →
      (Context.extend freshId now p intent []).intent = p.intent) ∧
    (∀ i, intent = some i → i ≠ "" →
      (Context.extend freshId now p intent []).intent = i) ∧
    (Context.extend freshId now p intent []).category = p.category ∧
    (Context.extend freshId now p intent []).constraints = p.constraints ∧
    (Context.extend freshId now p intent []).routing = p.routing ∧
    (Context.extend freshId now p intent []).output = p.output ∧
    (Context.extend freshId now p intent []).metadata = p.metadata ∧
    (Context.extend freshId now p intent []).inputs = p.inputs ∧
    (Context.extend freshId now p intent []).created_at = now := by
  refine ⟨rfl, rfl, hfresh, ?_, ?_, rfl, rfl, rfl, rfl, rfl, rfl, rfl⟩
  · rintro rfl
    rfl
  · rintro i rfl hne
    show (if i = "" then p.intent else i) = i
    rw [if_neg hne]

/-- C8 witness: extending a concrete Context with a new intent. -/
theorem C8_extend_no_mutation_witness :
    (Context.extend "child-id" tNow2 ctx0 (some "summarize") []).parent_id =
      some ctx0.id ∧
    (Context.extend "child-id" tNow2 ctx0 (some "summarize") []).id =
      "child-id" ∧
    (Context.extend "child-id" tNow2 ctx0 (some "summarize") []).intent =
      "summarize" ∧
    (Context.extend "child-id" tNow2 ctx0 (some "summarize") []).constraints =
      ctx0.constraints ∧
    (Context.extend "child-id" tNow2 ctx0 (some "summarize") []).inputs =
      ctx0.inputs :=
  ⟨(C8_extend_no_mutation "child-id" tNow2 ctx0 (some "summarize")
      (by decide)).1,
   (C8_extend_no_mutation "child-id" tNow2 ctx0 (some "summarize")
      (by decide)).2.1,
   (C8_extend_no_mutation "child-id" tNow2 ctx0 (some "summarize")
      (by decide)).2.2.2.2.1 "summarize" rfl (by decide),
   (C8_extend_no_mutation "child-id" tNow2 ctx0 (some "summarize")
      (by decide)).2.2.2.2.2.2.1,
   (C8_extend_no_mutation "child-id" tNow2 ctx0 (some "summarize")
      (by decide)).2.2.2.2.2.2.2.2.2.2.1⟩

/-- C9 counterexample: the claim says an explicitly supplied
`tokenEstimate` is stored as given for any value; but supplying `0`
(falsy, `tokens or self._estimate_tokens(data)`) falls back to the
heuristic: for 8 characters of content the stored estimate is 2, not 0. -/
theorem C9_zero_tokens_counterexample :
    (ContextInput.init (PyVal.pstr "abcdefgh") 1 (some 0)).tokens = 2 ∧
    (2 : Int) ≠ 0 :=
  ⟨rfl, by decide⟩

/-- C9 (amended: a supplied `tokenEstimate` overrides the heuristic only
when non-zero; zero falls back to the heuristic): construction with only
content (`tokens=None`, and Python's default `relevance=1.0` corresponds to
`r = 1`) stores the serialized-length-div-4 estimate; relevance is stored
as given; construction is total (never raises). -/
theorem C9_token_estimate (d : PyVal) (r : Rat) :
    (ContextInput.init d r none).tokens = estimateTokens d ∧
    (ContextInput.init d r none).relevance = r ∧
    (∀ t : Int, t ≠ 0 → (ContextInput.init d r (some t)).tokens = t) ∧
    (ContextInput.init d r (some 0)).tokens = estimateTokens d ∧
    (∀ s, estimateTokens (PyVal.pstr s) = ((s.data.length / 4 : Nat) : Int)) ∧
    (∀ xs, estimateTokens (PyVal.plist xs) =
      (((dumps (PyVal.plist xs)).length / 4 : Nat) : Int)) ∧
    (∀ kvs, estimateTokens (PyVal.pdict kvs) =
      (((dumps (PyVal.pdict kvs)).length / 4 : Nat) : Int)) := by
  refine ⟨rfl, rfl, ?_, ?_, ?_, ?_, ?_⟩
  · intro t ht
    show (if t = 0 then estimateTokens d else t) = t
    rw [if_neg ht]
  · show (if (0 : Int) = 0 then estimateTokens d else 0) = estimateTokens d
    rw [if_pos rfl]
  · intro s
    rfl
  · intro xs
    cases xs <;> rfl
  · intro kvs
    cases kvs <;> rfl

/-- C9 witness: the heuristic and the non-zero override at concrete
inputs — "hello world!" is 12 characters, so 3 tokens. -/
theorem C9_token_estimate_witness :
    (ContextInput.init (PyVal.pstr "hello world!") 1 none).tokens = 3 ∧
    (ContextInput.init (PyVal.pstr "hello world!") 1 (some 7)).tokens = 7 :=
  ⟨((C9_token_estimate (PyVal.pstr "hello world!") 1).1).trans (by decide),
   (C9_token_estimate (PyVal.pstr "hello world!") 1).2.2.1 7 (by decide)⟩

/-- C10 counterexample: a payload missing `created_at` (and `id` and
`inputs`) deserializes successfully — the code silently substitutes the
construction-time clock reading, a fresh id and an empty input list instead
of failing fast, contradicting the claim that missing required fields are
never silently defaulted. -/
theorem C10_missing_created_at_counterexample :
    Context.from_dict "fresh-uuid" tNow payloadNoCreated =
      Except.ok
        { id := "fresh-uuid", intent := "analyze", category := none
          inputs := [], constraints := [], routing := [], output := []
          metadata := [], parent_id := none, created_at := tNow } :=
  rfl

/-- C10 (amended): deserialization does fail fast on a missing `intent`
(`KeyError`) and on a present-but-malformed `created_at`
(`ValueError` from `fromisoformat`); but a payload whose `created_at` key
is absent is accepted and the resulting Context carries the
deserialization-time clock reading as its timestamp (silent default). -/
theorem C10_deserialization_errors (freshId : String) (now : PyDatetime)
    (d : CtxPayload) :
    (d.intent = none →
       Context.from_dict freshId now d = Except.error "KeyError: 'intent'") ∧
    (∀ s, d.intent ≠ none → d.created_at = some s →
       PyDatetime.fromisoformat (replaceZ s) = none →
       Context.from_dict freshId now d =
         Except.error "ValueError: invalid isoformat string") ∧
    (d.intent ≠ none → d.created_at = none →
       ∃ c, Context.from_dict freshId now d = Except.ok c ∧
         c.created_at = now) := by
  refine ⟨?_, ?_, ?_⟩
  · intro h
    unfold Context.from_dict
    rw [h]
  · intro s hi hc hbad
    rcases hint : d.intent with _ | i
    · exact absurd hint hi
    · unfold Context.from_dict
      rw [hint, hc]
      dsimp only
      rw [hbad]
  · intro hi hc
    rcases hint : d.intent with _ | i
    · exact absurd hint hi
    · unfold Context.from_dict
      rw [hint, hc]
      dsimp only
      rcases d.inputs with _ | ips
      · exact ⟨_, rfl, rfl⟩
      · exact ⟨_, rfl, rfl⟩

/-- C10 witness: the two fail-fast paths at concrete payloads — a missing
`intent` and a malformed `created_at` string. -/
theorem C10_deserialization_errors_witness :
    Context.from_dict "fresh-uuid" tNow payloadNoIntent =
      Except.error "KeyError: 'intent'" ∧
    Context.from_dict "fresh-uuid" tNow payloadBadCreated =
      Except.error "ValueError: invalid isoformat string" :=
  ⟨(C10_deserialization_errors "fresh-uuid" tNow payloadNoIntent).1 rfl,
   (C10_deserialization_errors "fresh-uuid" tNow payloadBadCreated).2.1
     "not-a-timestamp" (by decide) rfl (by decide)⟩

end ContextCore
